import Mathlib

/-!
Verification of the infinite-social-feed ranking and pagination engine.

This file is a shallow embedding of the JavaScript source:
  * `src/models/Post.js` — the `Post` data model, its `hoursSinceCreation`
    virtual and the `incrementLikes` / `decrementLikes` methods;
  * `utils/ranking.js` (the `RankingEngine` class) — `calculateTagScore`,
    `calculateRecencyScore`, `calculatePopularityScore`,
    `calculateRankingScore`, `getUserLikedTags`, `getMaxLikes` and
    `getPersonalizedFeed`;
  * `routes/posts.js` — the `GET /feed`, `POST /:id/like` and
    `DELETE /:id/like` handlers, including the `parseInt(q) || default`
    query-parameter coercion.

JavaScript numbers are modelled as real numbers (`ℝ`); `Math.log` is
`Real.log`; `Math.floor` of an integer quotient is `Int.fdiv`.  The
MongoDB collections are modelled as in-memory lists carried in a `DB`
record, and each query of the code is translated to the corresponding
list operation (filter / find? / sort / limit).  `Array.prototype.sort`
is modelled as a stable insertion sort with the source's comparator.
-/

/-- A document of the `posts` collection (`src/models/Post.js`).  Only the
fields read by the ranking/pagination/like code are carried: `postId`
stands for Mongo's `_id`, `createdAt` is a millisecond timestamp. -/
structure Post where
  postId : Nat
  userId : Nat
  tags : List String
  likes : Nat
  createdAt : Int
  isActive : Bool
deriving DecidableEq

/-- The database state: the `posts` collection and the `likes` collection
(each like is a `(userId, postId)` pair; the schema enforces uniqueness
of the pair, which the model does not need to assume). -/
structure DB where
  posts : List Post
  likes : List (Nat × Nat)
deriving DecidableEq

/-- Model of JavaScript `String.prototype.toLowerCase` (ASCII-faithful):
lower-case every character. -/
def jsToLower (s : String) : String := String.mk (s.data.map Char.toLower)

/-- The `hoursSinceCreation` virtual of `Post.js`:
`Math.floor((now - createdAt) / (1000*60*60))`.  Floor division of the
millisecond difference; note the source does NOT clamp a negative
difference. -/
def hoursSinceCreation (p : Post) (now : Int) : Int :=
  Int.fdiv (now - p.createdAt) 3600000

/-- `incrementLikes` of `Post.js`: `this.likes += 1`. -/
def incrementLikes (p : Post) : Post := { p with likes := p.likes + 1 }

/-- `decrementLikes` of `Post.js`: `if (this.likes > 0) this.likes -= 1`. -/
def decrementLikes (p : Post) : Post :=
  if 0 < p.likes then { p with likes := p.likes - 1 } else p

/-- The weight constants of the `RankingEngine` constructor. -/
def tagWeight : ℝ := 0.4

/-- Recency weight of the `RankingEngine` constructor. -/
def recencyWeight : ℝ := 0.3

/-- Popularity weight of the `RankingEngine` constructor. -/
def popularityWeight : ℝ := 0.3

/-- `RankingEngine.calculateTagScore`: zero on an empty profile or an
untagged post, otherwise the count of post tags whose lower-casing occurs
in the profile, divided by the profile length, times the tag weight. -/
noncomputable def calculateTagScore (userLikedTags postTags : List String) : ℝ :=
  if userLikedTags = [] then 0
  else if postTags = [] then 0
  else
    (((postTags.filter (fun tag => userLikedTags.contains (jsToLower tag))).length : ℝ)
      / (userLikedTags.length : ℝ)) * tagWeight

/-- `RankingEngine.calculateRecencyScore`: `(1 / (hours + 1)) * 0.3`,
with no guard on the sign of `hours`. -/
noncomputable def calculateRecencyScore (hours : Int) : ℝ :=
  (1 / ((hours : ℝ) + 1)) * recencyWeight

/-- `RankingEngine.calculatePopularityScore`: zero when `maxLikes` is 0,
otherwise `(log(likes+1) / log(maxLikes+1)) * 0.3`. -/
noncomputable def calculatePopularityScore (likes maxLikes : Nat) : ℝ :=
  if maxLikes = 0 then 0
  else (Real.log ((likes : ℝ) + 1) / Real.log ((maxLikes : ℝ) + 1)) * popularityWeight

/-- `RankingEngine.calculateRankingScore`: sum of the three terms, where
the recency term reads the post's `hoursSinceCreation` virtual. -/
noncomputable def calculateRankingScore (p : Post) (userLikedTags : List String)
    (maxLikes : Nat) (now : Int) : ℝ :=
  calculateTagScore userLikedTags p.tags
    + calculateRecencyScore (hoursSinceCreation p now)
    + calculatePopularityScore p.likes maxLikes

/-- `RankingEngine.getUserLikedTags`: walk the user's likes, look the
liked post up, collect its tags lower-cased into a `Set` (modelled by
`dedup`). -/
def getUserLikedTags (db : DB) (userId : Nat) : List String :=
  ((((db.likes.filter (fun l => l.1 == userId)).map
      (fun l => ((db.posts.find? (fun p => p.postId == l.2)).map Post.tags).getD [])).flatten).map
    jsToLower).dedup

/-- `RankingEngine.getMaxLikes`: `Post.findOne({}).sort({likes: -1})` —
the maximum like count over the WHOLE `posts` collection (no `isActive`
filter, no candidate bound), 0 when the collection is empty. -/
def getMaxLikes (db : DB) : Nat :=
  db.posts.foldr (fun p m => max p.likes m) 0

/-- Stable insertion of `a` into `l`: `a` is placed before the first
element `b` with `le a b`.  Together with `stableSortBy` this models a
stable `Array.prototype.sort`. -/
def stableInsert (le : α → α → Bool) (a : α) : List α → List α
  | [] => [a]
  | b :: l => if le a b then a :: b :: l else b :: stableInsert le a l

/-- Stable sort (insertion sort) with a boolean `le`; models the stable
`Array.prototype.sort` of modern JavaScript engines. -/
def stableSortBy (le : α → α → Bool) : List α → List α
  | [] => []
  | a :: l => stableInsert le a (stableSortBy le l)

/-- The candidate selection of `getPersonalizedFeed`:
`Post.find({isActive: true}).sort({createdAt: -1}).limit(1000)` — active
posts, newest first, truncated to the 1000-item batch. -/
def candidatePosts (db : DB) : List Post :=
  (stableSortBy (fun a b => decide (b.createdAt ≤ a.createdAt))
    (db.posts.filter (fun p => p.isActive))).take 1000

/-- A post paired with its computed `rankingScore` (the
`{...post, rankingScore}` object of `getPersonalizedFeed`). -/
structure ScoredPost where
  post : Post
  rankingScore : ℝ

/-- The comparator passed to `sort` in `getPersonalizedFeed`:
`(a, b) => b.rankingScore - a.rankingScore`. -/
noncomputable def feedComparator (a b : ScoredPost) : ℝ :=
  b.rankingScore - a.rankingScore

/-- The scoring and sorting phase of `getPersonalizedFeed`: score every
candidate with the user's liked tags and the corpus-wide `getMaxLikes`
value, then sort by ranking score descending. -/
noncomputable def rankedPosts (db : DB) (userId : Nat) (now : Int) : List ScoredPost :=
  stableSortBy (fun a b => decide (b.rankingScore ≤ a.rankingScore))
    ((candidatePosts db).map
      (fun p => ⟨p, calculateRankingScore p (getUserLikedTags db userId) (getMaxLikes db) now⟩))

/-- An entry of the feed response: the post, its score and the
`isLiked` annotation. -/
structure FeedEntry where
  post : Post
  rankingScore : ℝ
  isLiked : Bool

/-- The feed response object of `getPersonalizedFeed`. -/
structure FeedResult where
  posts : List FeedEntry
  hasMore : Bool
  total : Nat
  page : Nat
  limit : Nat

/-- `RankingEngine.getPersonalizedFeed(userId, page, limit)`: skip/limit
slicing of the ranked list, `hasMore = skip + limit < total`, `total`
the length of the whole scored batch, plus the `isLiked` annotation. -/
noncomputable def getPersonalizedFeed (db : DB) (userId : Nat) (page limit : Nat)
    (now : Int) : FeedResult :=
  let skip := (page - 1) * limit
  let ranked := rankedPosts db userId now
  let paginated := (ranked.drop skip).take limit
  { posts := paginated.map
      (fun s => ⟨s.post, s.rankingScore,
        ((db.likes.filter (fun l => l.1 == userId)).map Prod.snd).contains s.post.postId⟩)
    hasMore := decide (skip + limit < ranked.length)
    total := ranked.length
    page := page
    limit := limit }

/-- Model of JavaScript `parseInt(s)` restricted to decimal input: skip
leading whitespace, an optional sign, then the longest digit prefix;
`none` models `NaN`.  (The `0x` hexadecimal prefix of full `parseInt` is
not exercised by any claim and is not modelled.) -/
def jsParseInt (s : String) : Option Int :=
  let cs := s.data.dropWhile (fun c => c.isWhitespace)
  let signAndRest : Int × List Char :=
    match cs with
    | '-' :: rest => (-1, rest)
    | '+' :: rest => (1, rest)
    | _ => (1, cs)
  let ds := signAndRest.2.takeWhile (fun c => c.isDigit)
  if ds = [] then none
  else some (signAndRest.1 * (ds.foldl (fun acc c => acc * 10 + ((c.toNat : Int) - 48)) 0))

/-- The `parseInt(req.query.x) || d` idiom of the route handlers: an
absent parameter, an unparseable one (`NaN`) or the falsy value `0` all
fall back to the default `d`. -/
def parseParamOr (p : Option String) (d : Int) : Int :=
  match p with
  | none => d
  | some s =>
    match jsParseInt s with
    | none => d
    | some n => if n = 0 then d else n

/-- The `GET /feed` handler of `routes/posts.js`: coerce `page` and
`limit` with `parseInt(..) || default`, reject when
`page < 1 || limit < 1 || limit > 50`, otherwise delegate to
`getPersonalizedFeed`. -/
noncomputable def feedHandler (pageParam limitParam : Option String) (db : DB)
    (userId : Nat) (now : Int) : Except String FeedResult :=
  let page := parseParamOr pageParam 1
  let limit := parseParamOr limitParam 10
  if page < 1 ∨ limit < 1 ∨ limit > 50 then
    Except.error "Invalid pagination parameters"
  else
    Except.ok (getPersonalizedFeed db userId page.toNat limit.toNat now)

/-- Outcome of the `POST /:id/like` handler. -/
inductive LikeOutcome where
  | notFound
  | inactivePost
  | alreadyLiked
  | ok (updatedPost : Post) (reportedLikes : Int)
deriving DecidableEq

/-- The `POST /:id/like` handler of `routes/posts.js`: 404 when the post
is missing, 400 when it is inactive or already liked by the user,
otherwise store the like, run `incrementLikes`, and respond with
`post.likes + 1` read AFTER the increment. -/
def likePostHandler (db : DB) (userId postId : Nat) : LikeOutcome :=
  match db.posts.find? (fun p => p.postId == postId) with
  | none => LikeOutcome.notFound
  | some post =>
    if !post.isActive then LikeOutcome.inactivePost
    else if db.likes.contains (userId, postId) then LikeOutcome.alreadyLiked
    else
      let post' := incrementLikes post
      LikeOutcome.ok post' ((post'.likes : Int) + 1)

/-- Outcome of the `DELETE /:id/like` handler. -/
inductive UnlikeOutcome where
  | notFound
  | notLiked
  | ok (updatedPost : Post) (reportedLikes : Int)
deriving DecidableEq

/-- The `DELETE /:id/like` handler of `routes/posts.js`: 404 when the
post is missing, 400 when the user has not liked it, otherwise delete
the like, run `decrementLikes`, and respond with
`Math.max(0, post.likes - 1)` read AFTER the decrement. -/
def unlikePostHandler (db : DB) (userId postId : Nat) : UnlikeOutcome :=
  match db.posts.find? (fun p => p.postId == postId) with
  | none => UnlikeOutcome.notFound
  | some post =>
    if db.likes.contains (userId, postId) then
      let post' := decrementLikes post
      UnlikeOutcome.ok post' (max 0 ((post'.likes : Int) - 1))
    else UnlikeOutcome.notLiked

/-- The tag-match term as the specification words it: set-intersection
cardinality over profile cardinality, weight 0.4, and 0 on an empty
profile.  Stated over finsets so that it is literally about sets of
tags; used to compare the source's `calculateTagScore` against the
specification. -/
noncomputable def tagTermSpec (userTags postTags : List String) : ℝ :=
  if 0 < userTags.toFinset.card then
    ((postTags.toFinset ∩ userTags.toFinset).card : ℝ) / (userTags.toFinset.card : ℝ) * 0.4
  else 0

/-- The popularity term as the specification words it:
`log(likes+1)/log(maxLikes+1) * 0.3` when `maxLikes > 0`, else 0; used
to compare the source's `calculatePopularityScore` against the
specification. -/
noncomputable def popularityTermSpec (likes maxLikes : Nat) : ℝ :=
  if 0 < maxLikes then
    Real.log ((likes : ℝ) + 1) / Real.log ((maxLikes : ℝ) + 1) * 0.3
  else 0

/-- The maximum like count over the candidate snapshot itself — the
`NormalizationContext` the specification demands (maximum engagement
counter across the CURRENT candidate pool); used to compare against the
source's corpus-wide `getMaxLikes`. -/
def candidateMaxLikes (db : DB) : Nat :=
  (candidatePosts db).foldr (fun p m => max p.likes m) 0

/-- Inserting with `stableInsert` is a permutation of consing. -/
theorem stableInsert_perm (le : α → α → Bool) (a : α) (l : List α) :
    (stableInsert le a l).Perm (a :: l) := by
  induction l with
  | nil => simp [stableInsert]
  | cons b t ih =>
    by_cases h : le a b
    · simp [stableInsert, h]
    · simp only [stableInsert, h]
      exact (List.Perm.cons b ih).trans (List.Perm.swap a b t)

/-- `stableSortBy` permutes its input. -/
theorem stableSortBy_perm (le : α → α → Bool) (l : List α) :
    (stableSortBy le l).Perm l := by
  induction l with
  | nil => simp [stableSortBy]
  | cons a t ih =>
    exact ((stableInsert_perm le a (stableSortBy le t)).trans (List.Perm.cons a ih))

/-- `stableSortBy` preserves length. -/
theorem stableSortBy_length (le : α → α → Bool) (l : List α) :
    (stableSortBy le l).length = l.length :=
  (stableSortBy_perm le l).length_eq

/-- Membership is invariant under `stableSortBy`. -/
theorem mem_stableSortBy (le : α → α → Bool) (l : List α) (a : α) :
    a ∈ stableSortBy le l ↔ a ∈ l :=
  (stableSortBy_perm le l).mem_iff

/-- A member's like count is at most the folded maximum. -/
theorem likes_le_foldMax (l : List Post) (p : Post) (hp : p ∈ l) :
    p.likes ≤ l.foldr (fun q m => max q.likes m) 0 := by
  induction l with
  | nil => cases hp
  | cons a t ih =>
    rcases List.mem_cons.mp hp with h | h
    · subst h; exact le_max_left _ _
    · exact le_trans (ih h) (le_max_right _ _)

/-- The folded maximum is bounded by any bound on the members. -/
theorem foldMax_le (l : List Post) (M : Nat) (h : ∀ p ∈ l, p.likes ≤ M) :
    l.foldr (fun q m => max q.likes m) 0 ≤ M := by
  induction l with
  | nil => simp
  | cons a t ih =>
    simp only [List.foldr_cons]
    exact max_le (h a (List.mem_cons_self a t)) (ih (fun p hp => h p (List.mem_cons_of_mem a hp)))

/-- Every candidate is a post of the store. -/
theorem candidatePosts_subset (db : DB) (p : Post) (hp : p ∈ candidatePosts db) :
    p ∈ db.posts := by
  unfold candidatePosts at hp
  exact List.mem_of_mem_filter ((mem_stableSortBy _ _ p).mp (List.mem_of_mem_take hp))

/-- Concatenating the `⌈·/k⌉` successive `skip`/`take` slices of a list
reproduces its prefix of length `n * k`. -/
theorem flatten_slices (l : List α) (k : Nat) :
    ∀ n : Nat,
      ((List.range n).map (fun i => ((l.drop (i * k)).take k))).flatten = l.take (n * k) := by
  intro n
  induction n with
  | zero => simp
  | succ m ih =>
    rw [List.range_succ, List.map_append, List.flatten_append]
    simp only [List.map_cons, List.map_nil, List.flatten_cons, List.flatten_nil,
      List.append_nil, ih]
    rw [← List.take_add]
    congr 1
    ring

/-- The tag term is never negative. -/
theorem calculateTagScore_nonneg (userTags postTags : List String) :
    0 ≤ calculateTagScore userTags postTags := by
  unfold calculateTagScore tagWeight
  split
  · norm_num
  · split
    · norm_num
    · positivity

/-- With a deduplicated, lower-cased post tag list the tag term is at
most the tag weight: the matching tags are distinct members of the
profile, so their count is bounded by the profile length. -/
theorem calculateTagScore_le_tagWeight (userTags postTags : List String)
    (hp : postTags.Nodup) (hlow : ∀ t ∈ postTags, jsToLower t = t) :
    calculateTagScore userTags postTags ≤ tagWeight := by
  unfold calculateTagScore
  split
  · unfold tagWeight; norm_num
  · split
    · unfold tagWeight; norm_num
    · rename_i hU _
      have hlen : (postTags.filter (fun tag => userTags.contains (jsToLower tag))).length
          ≤ userTags.length := by
        refine List.Subperm.length_le (List.Nodup.subperm (hp.filter _) ?_)
        intro x hx
        rcases List.mem_filter.mp hx with ⟨hxt, hxc⟩
        rw [hlow x hxt] at hxc
        exact List.elem_iff.mp hxc
      have hUpos : 0 < (userTags.length : ℝ) := by
        have := List.length_pos.mpr hU
        exact_mod_cast this
      have hdiv : ((postTags.filter (fun tag => userTags.contains (jsToLower tag))).length : ℝ)
          / (userTags.length : ℝ) ≤ 1 := by
        rw [div_le_one hUpos]
        exact_mod_cast hlen
      calc ((postTags.filter (fun tag => userTags.contains (jsToLower tag))).length : ℝ)
            / (userTags.length : ℝ) * tagWeight
          ≤ 1 * tagWeight := by
            refine mul_le_mul_of_nonneg_right hdiv ?_
            unfold tagWeight; norm_num
        _ = tagWeight := one_mul _

/-- For a nonnegative age the recency term is strictly positive. -/
theorem calculateRecencyScore_pos (hours : Int) (h : 0 ≤ hours) :
    0 < calculateRecencyScore hours := by
  unfold calculateRecencyScore recencyWeight
  have h1 : (0 : ℝ) < (hours : ℝ) + 1 := by
    have : (0 : ℝ) ≤ (hours : ℝ) := by exact_mod_cast h
    linarith
  positivity

/-- For a nonnegative age the recency term is at most the recency
weight. -/
theorem calculateRecencyScore_le (hours : Int) (h : 0 ≤ hours) :
    calculateRecencyScore hours ≤ recencyWeight := by
  unfold calculateRecencyScore
  have h1 : (1 : ℝ) ≤ (hours : ℝ) + 1 := by
    have : (0 : ℝ) ≤ (hours : ℝ) := by exact_mod_cast h
    linarith
  have hdiv : (1 : ℝ) / ((hours : ℝ) + 1) ≤ 1 := by
    rw [div_le_one (by linarith)]
    exact h1
  calc (1 / ((hours : ℝ) + 1)) * recencyWeight ≤ 1 * recencyWeight := by
        refine mul_le_mul_of_nonneg_right hdiv ?_
        unfold recencyWeight; norm_num
    _ = recencyWeight := one_mul _

/-- The popularity term is never negative. -/
theorem calculatePopularityScore_nonneg (likes maxLikes : Nat) :
    0 ≤ calculatePopularityScore likes maxLikes := by
  unfold calculatePopularityScore popularityWeight
  split
  · norm_num
  · have hl : (0 : ℝ) ≤ Real.log ((likes : ℝ) + 1) := by
      refine Real.log_nonneg ?_
      have : (0 : ℝ) ≤ (likes : ℝ) := Nat.cast_nonneg likes
      linarith
    have hm : (0 : ℝ) ≤ Real.log ((maxLikes : ℝ) + 1) := by
      refine Real.log_nonneg ?_
      have : (0 : ℝ) ≤ (maxLikes : ℝ) := Nat.cast_nonneg maxLikes
      linarith
    positivity

/-- When the like count is bounded by the normalization maximum the
popularity term is at most the popularity weight. -/
theorem calculatePopularityScore_le (likes maxLikes : Nat) (h : likes ≤ maxLikes) :
    calculatePopularityScore likes maxLikes ≤ popularityWeight := by
  unfold calculatePopularityScore
  split
  · unfold popularityWeight; norm_num
  · rename_i hm
    have hm1 : (1 : ℝ) < (maxLikes : ℝ) + 1 := by
      have : 1 ≤ maxLikes := Nat.one_le_iff_ne_zero.mpr hm
      have : (1 : ℝ) ≤ (maxLikes : ℝ) := by exact_mod_cast this
      linarith
    have hlogpos : 0 < Real.log ((maxLikes : ℝ) + 1) := Real.log_pos hm1
    have hle : Real.log ((likes : ℝ) + 1) ≤ Real.log ((maxLikes : ℝ) + 1) := by
      refine Real.log_le_log (by positivity) ?_
      have : (likes : ℝ) ≤ (maxLikes : ℝ) := by exact_mod_cast h
      linarith
    have hdiv : Real.log ((likes : ℝ) + 1) / Real.log ((maxLikes : ℝ) + 1) ≤ 1 := by
      rw [div_le_one hlogpos]
      exact hle
    calc Real.log ((likes : ℝ) + 1) / Real.log ((maxLikes : ℝ) + 1) * popularityWeight
        ≤ 1 * popularityWeight := by
          refine mul_le_mul_of_nonneg_right hdiv ?_
          unfold popularityWeight; norm_num
      _ = popularityWeight := one_mul _

/-- A post dated two hours in the future of the request clock: the
`hoursSinceCreation` virtual evaluates to -2 on it. -/
def futurePost : Post :=
  { postId := 1, userId := 1, tags := [], likes := 0, createdAt := 7200000, isActive := true }

/-- C1 counterexample: `calculateRankingScore` on a post created after
`now` is NEGATIVE — the code never clamps a negative age, so the recency
term is `(1 / (-2 + 1)) * 0.3 = -0.3` and the composite score leaves
`[0, 1]`. -/
theorem ranking_score_negative_for_future_post :
    calculateRankingScore futurePost [] 0 0 < 0 := by
  have h : hoursSinceCreation futurePost 0 = -2 := by decide
  unfold calculateRankingScore
  rw [h]
  have ht : calculateTagScore [] futurePost.tags = 0 := by simp [calculateTagScore]
  have hpop : calculatePopularityScore futurePost.likes 0 = 0 := by
    simp [calculatePopularityScore]
  rw [ht, hpop]
  unfold calculateRecencyScore recencyWeight
  norm_num

/-- C1 (amended): for a post whose tag list is deduplicated and
lower-cased, whose like count is bounded by the normalization maximum
and whose age is NONNEGATIVE (`createdAt ≤ now`), the composite score
lies in `[0, 1]` and the recency term is positive and at most its
weight 0.3.  The clamp the claim describes does not exist in the code:
the nonnegative-age hypothesis cannot be dropped
(`ranking_score_negative_for_future_post`). -/
theorem ranking_score_bounds (p : Post) (userLikedTags : List String)
    (maxLikes : Nat) (now : Int)
    (htags : p.tags.Nodup) (hlow : ∀ t ∈ p.tags, jsToLower t = t)
    (hlikes : p.likes ≤ maxLikes) (hage : p.createdAt ≤ now) :
    0 ≤ calculateRankingScore p userLikedTags maxLikes now
    ∧ calculateRankingScore p userLikedTags maxLikes now ≤ 1
    ∧ 0 < calculateRecencyScore (hoursSinceCreation p now)
    ∧ calculateRecencyScore (hoursSinceCreation p now) ≤ recencyWeight := by
  have hhours : 0 ≤ hoursSinceCreation p now := by
    unfold hoursSinceCreation
    exact Int.fdiv_nonneg (by omega) (by norm_num)
  have h1 := calculateTagScore_nonneg userLikedTags p.tags
  have h2 := calculateTagScore_le_tagWeight userLikedTags p.tags htags hlow
  have h3 := calculateRecencyScore_pos (hoursSinceCreation p now) hhours
  have h4 := calculateRecencyScore_le (hoursSinceCreation p now) hhours
  have h5 := calculatePopularityScore_nonneg p.likes maxLikes
  have h6 := calculatePopularityScore_le p.likes maxLikes hlikes
  have hw : tagWeight + recencyWeight + popularityWeight = 1 := by
    unfold tagWeight recencyWeight popularityWeight; norm_num
  unfold calculateRankingScore
  refine ⟨by linarith, by linarith, h3, h4⟩

/-- A minimal post used to instantiate hypothesis-bearing theorems. -/
def plainPost : Post :=
  { postId := 1, userId := 1, tags := [], likes := 0, createdAt := 0, isActive := true }

/-- Witness for `ranking_score_bounds` at a concrete post, profile,
maximum and clock. -/
theorem ranking_score_bounds_witness :
    plainPost.tags.Nodup ∧ (∀ t ∈ plainPost.tags, jsToLower t = t)
    ∧ plainPost.likes ≤ 0 ∧ plainPost.createdAt ≤ 0
    ∧ (0 ≤ calculateRankingScore plainPost ["music"] 0 0
       ∧ calculateRankingScore plainPost ["music"] 0 0 ≤ 1
       ∧ 0 < calculateRecencyScore (hoursSinceCreation plainPost 0)
       ∧ calculateRecencyScore (hoursSinceCreation plainPost 0) ≤ recencyWeight) :=
  ⟨by decide, by simp [plainPost], by decide, by decide,
    ranking_score_bounds plainPost ["music"] 0 0 (by decide) (by simp [plainPost])
      (by decide) (by decide)⟩

/-- C5: on case-normalized, deduplicated tag lists the source's
`calculateTagScore` coincides with the specification's set formula
`|item.tags ∩ profile.tags| / |profile.tags| * 0.4` (zero on an empty
profile), and both degenerate inputs — empty profile, untagged post —
yield exactly 0 rather than an error. -/
theorem tag_score_matches_spec (userTags postTags : List String)
    (hu : userTags.Nodup) (hp : postTags.Nodup)
    (hlow : ∀ t ∈ postTags, jsToLower t = t) :
    calculateTagScore userTags postTags = tagTermSpec userTags postTags
    ∧ calculateTagScore [] postTags = 0
    ∧ calculateTagScore userTags [] = 0 := by
  refine ⟨?_, by simp [calculateTagScore], by simp [calculateTagScore]⟩
  by_cases hU : userTags = []
  · subst hU; simp [calculateTagScore, tagTermSpec]
  · by_cases hP : postTags = []
    · subst hP
      simp [calculateTagScore, tagTermSpec, hU]
    · have hcard : userTags.toFinset.card = userTags.length :=
        List.toFinset_card_of_nodup hu
      have hpos : 0 < userTags.toFinset.card := by
        rw [hcard]
        exact List.length_pos.mpr hU
      have hfilter : postTags.filter (fun tag => userTags.contains (jsToLower tag))
          = postTags.filter (fun tag => userTags.contains tag) :=
        List.filter_congr (fun x hx => by rw [hlow x hx])
      have hinter : postTags.filter (fun tag => userTags.contains tag)
          = postTags ∩ userTags := rfl
      have hnint : (postTags ∩ userTags).Nodup := List.Nodup.filter _ hp
      have hlen : ((postTags ∩ userTags).length : ℝ)
          = ((postTags.toFinset ∩ userTags.toFinset).card : ℝ) := by
        rw [← List.toFinset_inter, List.toFinset_card_of_nodup hnint]
      rw [calculateTagScore, tagTermSpec, if_neg hU, if_neg hP, if_pos hpos,
        hfilter, hinter, hlen, hcard]
      unfold tagWeight
      ring

/-- Witness for `tag_score_matches_spec` on concrete tag lists with one
overlapping tag out of a two-tag profile. -/
theorem tag_score_matches_spec_witness :
    (["music", "art"] : List String).Nodup ∧ (["art", "cooking"] : List String).Nodup
    ∧ (∀ t ∈ (["art", "cooking"] : List String), jsToLower t = t)
    ∧ (calculateTagScore ["music", "art"] ["art", "cooking"]
        = tagTermSpec ["music", "art"] ["art", "cooking"]
       ∧ calculateTagScore [] ["art", "cooking"] = 0
       ∧ calculateTagScore ["music", "art"] [] = 0) :=
  ⟨by decide, by decide, by decide,
    tag_score_matches_spec ["music", "art"] ["art", "cooking"]
      (by decide) (by decide) (by decide)⟩

/-- C6: the source's `calculatePopularityScore` coincides with the
specification's `log(likes+1)/log(maxLikes+1) * 0.3 when maxLikes > 0,
else 0`, and the `maxLikes = 0` guard returns exactly 0, so the
degenerate denominator `log(1) = 0` is never reached. -/
theorem popularity_score_matches_spec (likes maxLikes : Nat) :
    calculatePopularityScore likes maxLikes = popularityTermSpec likes maxLikes
    ∧ calculatePopularityScore likes 0 = 0 := by
  refine ⟨?_, by simp [calculatePopularityScore]⟩
  by_cases h : maxLikes = 0
  · subst h; simp [calculatePopularityScore, popularityTermSpec]
  · rw [calculatePopularityScore, popularityTermSpec, if_neg h,
      if_pos (Nat.pos_of_ne_zero h)]
    unfold popularityWeight
    ring

/-- Two distinct posts (different identifiers) that are otherwise
identical: they receive identical ranking scores. -/
def tiePostA : Post :=
  { postId := 1, userId := 1, tags := [], likes := 0, createdAt := 0, isActive := true }

/-- Second post of the tying pair; only the identifier differs. -/
def tiePostB : Post :=
  { postId := 2, userId := 1, tags := [], likes := 0, createdAt := 0, isActive := true }

/-- C3 counterexample: the sort key the code actually uses —
`rankingScore` alone, compared by `b.rankingScore - a.rankingScore` —
TIES on two distinct posts, so the ranking pass does not order
candidates by the claimed three-key composite and its key is not
tie-free. -/
theorem feed_sort_key_ties :
    tiePostA ≠ tiePostB
    ∧ calculateRankingScore tiePostA [] 0 0 = calculateRankingScore tiePostB [] 0 0
    ∧ feedComparator ⟨tiePostA, calculateRankingScore tiePostA [] 0 0⟩
        ⟨tiePostB, calculateRankingScore tiePostB [] 0 0⟩ = 0 := by
  refine ⟨by decide, rfl, ?_⟩
  show calculateRankingScore tiePostB [] 0 0 - calculateRankingScore tiePostA [] 0 0 = 0
  rw [sub_eq_zero]
  rfl

/-- C3 (amended): the comparator of the ranking pass depends on the
ranking score alone — it ties exactly when the scores are equal and
orders exactly by score, never consulting `createdAt` or the post
identifier, so the induced order is not strict on distinct items
(`feed_sort_key_ties`). -/
theorem feed_comparator_score_only (a b : ScoredPost) :
    (feedComparator a b = 0 ↔ a.rankingScore = b.rankingScore)
    ∧ (feedComparator a b < 0 ↔ b.rankingScore < a.rankingScore) := by
  unfold feedComparator
  constructor
  · rw [sub_eq_zero]
    exact eq_comm
  · exact sub_neg

/-- An inactive post holding the corpus-wide like maximum. -/
def inactiveViralPost : Post :=
  { postId := 1, userId := 1, tags := [], likes := 100, createdAt := 1000, isActive := false }

/-- An active post with few likes. -/
def activeQuietPost : Post :=
  { postId := 2, userId := 2, tags := [], likes := 5, createdAt := 2000, isActive := true }

/-- A store mixing the two: the candidate pool is `[activeQuietPost]`
but `getMaxLikes` still sees the inactive post. -/
def mixedDb : DB := { posts := [inactiveViralPost, activeQuietPost], likes := [] }

/-- C4 counterexample: the normalization maximum the ranking pass feeds
to the popularity term (`getMaxLikes`, computed over the WHOLE `posts`
collection) differs from the maximum over the candidate snapshot that
is actually scored — an inactive post outside the pool determines it. -/
theorem normalization_not_from_candidate_pool :
    getMaxLikes mixedDb = 100
    ∧ candidateMaxLikes mixedDb = 5
    ∧ getMaxLikes mixedDb ≠ candidateMaxLikes mixedDb := by
  refine ⟨by decide, by decide, by decide⟩

/-- C4 (amended): `getMaxLikes` is recomputed per request over the full
post corpus (inactive posts and posts beyond the 1000-candidate batch
included), so it always dominates the candidate snapshot's maximum but
need not equal it (`normalization_not_from_candidate_pool`). -/
theorem candidate_max_le_global_max (db : DB) :
    candidateMaxLikes db ≤ getMaxLikes db := by
  unfold candidateMaxLikes getMaxLikes
  exact foldMax_le _ _ (fun p hp => likes_le_foldMax _ p (candidatePosts_subset db p hp))

/-- The `posts` field of a feed response, unfolded. -/
theorem getPersonalizedFeed_posts (db : DB) (u : Nat) (page limit : Nat) (now : Int) :
    (getPersonalizedFeed db u page limit now).posts
      = (((rankedPosts db u now).drop ((page - 1) * limit)).take limit).map
          (fun s => ⟨s.post, s.rankingScore,
            ((db.likes.filter (fun l => l.1 == u)).map Prod.snd).contains s.post.postId⟩) := rfl

/-- The `hasMore` field of a feed response, unfolded. -/
theorem getPersonalizedFeed_hasMore (db : DB) (u : Nat) (page limit : Nat) (now : Int) :
    (getPersonalizedFeed db u page limit now).hasMore
      = decide ((page - 1) * limit + limit < (rankedPosts db u now).length) := rfl

/-- The `total` field of a feed response, unfolded. -/
theorem getPersonalizedFeed_total (db : DB) (u : Nat) (page limit : Nat) (now : Int) :
    (getPersonalizedFeed db u page limit now).total = (rankedPosts db u now).length := rfl

/-- Projecting the posts out of a feed page gives the corresponding
slice of the ranked list. -/
theorem feed_posts_map (db : DB) (u : Nat) (page limit : Nat) (now : Int) :
    (getPersonalizedFeed db u page limit now).posts.map FeedEntry.post
      = (((rankedPosts db u now).drop ((page - 1) * limit)).take limit).map ScoredPost.post := by
  rw [getPersonalizedFeed_posts, List.map_map]
  rfl

/-- The ranked list is a permutation of the candidate pool. -/
theorem rankedPosts_perm (db : DB) (u : Nat) (now : Int) :
    ((rankedPosts db u now).map ScoredPost.post).Perm (candidatePosts db) := by
  unfold rankedPosts
  refine ((stableSortBy_perm _ _).map ScoredPost.post).trans ?_
  have he : List.map (ScoredPost.post ∘ fun p =>
      ({ post := p,
         rankingScore := calculateRankingScore p (getUserLikedTags db u) (getMaxLikes db) now }
        : ScoredPost)) (candidatePosts db) = candidatePosts db :=
    List.map_id (candidatePosts db)
  rw [List.map_map, he]

/-- Ceiling division bound: `m ≤ ((m + k - 1) / k) * k` for `1 ≤ k`. -/
theorem ceil_div_mul_ge (m k : Nat) (hk : 1 ≤ k) : m ≤ ((m + k - 1) / k) * k := by
  have h := Nat.div_add_mod (m + k - 1) k
  have hlt : (m + k - 1) % k < k := Nat.mod_lt _ (by omega)
  rw [Nat.mul_comm] at h
  generalize hx : ((m + k - 1) / k) * k = x at h ⊢
  omega

/-- C2: over a static store, paging the personalized feed with page size
`k` (1..50) visits the whole ranked batch exactly once, in order, across
`⌈m/k⌉` pages (`m` the batch size); the ranked batch is a permutation of
the candidate pool; the final page reports `hasMore = false`; and every
request past the last page returns an empty item list with
`hasMore = false` again. -/
theorem feed_pagination_complete (db : DB) (u : Nat) (now : Int) (k m n : Nat)
    (hk1 : 1 ≤ k) (hk50 : k ≤ 50)
    (hm : m = (rankedPosts db u now).length)
    (hn : n = (m + k - 1) / k) :
    ((List.range n).map
        (fun i => ((getPersonalizedFeed db u (i + 1) k now).posts.map FeedEntry.post))).flatten
      = (rankedPosts db u now).map ScoredPost.post
    ∧ ((rankedPosts db u now).map ScoredPost.post).Perm (candidatePosts db)
    ∧ (0 < m → (getPersonalizedFeed db u n k now).hasMore = false)
    ∧ (∀ p : Nat, n < p →
        (getPersonalizedFeed db u p k now).posts = []
        ∧ (getPersonalizedFeed db u p k now).hasMore = false) := by
  have hcover : m ≤ n * k := hn ▸ ceil_div_mul_ge m k hk1
  refine ⟨?_, rankedPosts_perm db u now, ?_, ?_⟩
  · simp only [feed_posts_map, Nat.add_sub_cancel]
    have hstep : (fun i => (((rankedPosts db u now).drop (i * k)).take k).map ScoredPost.post)
        = (List.map ScoredPost.post ∘ fun i => ((rankedPosts db u now).drop (i * k)).take k) :=
      rfl
    rw [hstep, ← List.map_map, ← List.map_flatten, flatten_slices,
      List.take_of_length_le (by omega)]
  · intro hpos
    rw [getPersonalizedFeed_hasMore]
    simp only [decide_eq_false_iff_not, not_lt]
    have hn1 : 1 ≤ n := by
      have : m ≤ n * k := hcover
      by_contra hcon
      push_neg at hcon
      interval_cases n
      omega
    have : (n - 1) * k + k = n * k := by
      cases n with
      | zero => omega
      | succ j => simp [Nat.succ_sub_one, Nat.succ_mul]
    omega
  · intro p hp
    have hdrop : (rankedPosts db u now).drop ((p - 1) * k) = [] := by
      refine List.drop_eq_nil_of_le ?_
      have hnp : n ≤ p - 1 := by omega
      have : n * k ≤ (p - 1) * k := Nat.mul_le_mul_right k hnp
      omega
    constructor
    · rw [getPersonalizedFeed_posts, hdrop]
      simp
    · rw [getPersonalizedFeed_hasMore]
      simp only [decide_eq_false_iff_not, not_lt]
      have hnp : n ≤ p - 1 := by omega
      have : n * k ≤ (p - 1) * k := Nat.mul_le_mul_right k hnp
      omega

/-- A store holding a single active post and no likes. -/
def oneDb : DB := { posts := [plainPost], likes := [] }

/-- Witness for `feed_pagination_complete` on a one-post store with page
size 2 (one page in all). -/
theorem feed_pagination_complete_witness :
    1 ≤ 2 ∧ 2 ≤ 50 ∧ 1 = (rankedPosts oneDb 0 0).length ∧ 1 = (1 + 2 - 1) / 2
    ∧ (((List.range 1).map
          (fun i => ((getPersonalizedFeed oneDb 0 (i + 1) 2 0).posts.map FeedEntry.post))).flatten
        = (rankedPosts oneDb 0 0).map ScoredPost.post
      ∧ ((rankedPosts oneDb 0 0).map ScoredPost.post).Perm (candidatePosts oneDb)
      ∧ (0 < 1 → (getPersonalizedFeed oneDb 0 1 2 0).hasMore = false)
      ∧ (∀ p : Nat, 1 < p →
          (getPersonalizedFeed oneDb 0 p 2 0).posts = []
          ∧ (getPersonalizedFeed oneDb 0 p 2 0).hasMore = false)) :=
  ⟨by decide, by decide, rfl, by decide,
    feed_pagination_complete oneDb 0 0 2 1 1 (by decide) (by decide) rfl (by decide)⟩

/-- C10: the feed's ranking pass considers at most the 1000 newest
active posts: the reported `total` is `min(activeCount, 1000)`, every
served entry belongs to the 1000-capped candidate pool, and `hasMore`
is `false` as soon as the slice window reaches `total` — even when
further active posts exist beyond the batch. -/
theorem feed_candidate_cap (db : DB) (u : Nat) (now : Int) (page limit : Nat) :
    (getPersonalizedFeed db u page limit now).total
      = min (db.posts.filter (fun p => p.isActive)).length 1000
    ∧ (∀ e ∈ (getPersonalizedFeed db u page limit now).posts, e.post ∈ candidatePosts db)
    ∧ ((getPersonalizedFeed db u page limit now).total ≤ (page - 1) * limit + limit →
        (getPersonalizedFeed db u page limit now).hasMore = false) := by
  have hlen : (rankedPosts db u now).length
      = min (db.posts.filter (fun p => p.isActive)).length 1000 := by
    unfold rankedPosts candidatePosts
    rw [stableSortBy_length, List.length_map, List.length_take, stableSortBy_length,
      Nat.min_comm]
  refine ⟨by rw [getPersonalizedFeed_total, hlen], ?_, ?_⟩
  · intro e he
    rw [getPersonalizedFeed_posts] at he
    rcases List.mem_map.mp he with ⟨s, hs, rfl⟩
    have hs1 : s ∈ rankedPosts db u now :=
      List.drop_subset _ _ (List.mem_of_mem_take hs)
    unfold rankedPosts at hs1
    have hs2 := (mem_stableSortBy _ _ s).mp hs1
    rcases List.mem_map.mp hs2 with ⟨p, hp, rfl⟩
    exact hp
  · intro hle
    rw [getPersonalizedFeed_total] at hle
    rw [getPersonalizedFeed_hasMore]
    simp only [decide_eq_false_iff_not, not_lt]
    exact hle

/-- Witness for `feed_candidate_cap` on the one-post store, first page,
page size 5: the window covers the whole batch, so `hasMore` is false. -/
theorem feed_candidate_cap_witness :
    (getPersonalizedFeed oneDb 0 1 5 0).total
      = min (oneDb.posts.filter (fun p => p.isActive)).length 1000
    ∧ (getPersonalizedFeed oneDb 0 1 5 0).total ≤ (1 - 1) * 5 + 5
    ∧ (getPersonalizedFeed oneDb 0 1 5 0).hasMore = false :=
  ⟨(feed_candidate_cap oneDb 0 0 1 5).1, by decide,
    (feed_candidate_cap oneDb 0 0 1 5).2.2 (by decide)⟩

/-- The empty store. -/
def emptyDb : DB := { posts := [], likes := [] }

/-- Unfolding of `parseParamOr` on a present parameter. -/
theorem parseParamOr_some (s : String) (d : Int) :
    parseParamOr (some s) d
      = (match jsParseInt s with
         | none => d
         | some n => if n = 0 then d else n) := rfl

/-- C7 counterexample: a feed request carrying an unparseable position
token does NOT fail — `parseInt` yields `NaN`, `|| 1` silently replaces
it with page 1, and the handler serves the first page.  There is no
`MalformedCursor` condition anywhere in the route. -/
theorem malformed_page_param_accepted :
    feedHandler (some "not-a-cursor") none emptyDb 0 0
      = Except.ok (getPersonalizedFeed emptyDb 0 1 10 0) := rfl

/-- C7 (amended): the feed endpoint takes a numeric `page` parameter,
not an opaque cursor; a malformed value is never rejected — it behaves
exactly like an absent parameter, silently restarting the scroll at the
first page with the default page size 10. -/
theorem malformed_page_param_restarts (s : String) (db : DB) (u : Nat) (now : Int)
    (h : jsParseInt s = none) :
    feedHandler (some s) none db u now = feedHandler none none db u now
    ∧ feedHandler none none db u now = Except.ok (getPersonalizedFeed db u 1 10 now) := by
  constructor
  · have hp : parseParamOr (some s) 1 = 1 := by
      rw [parseParamOr_some, h]
    simp only [feedHandler, hp]
    rfl
  · rfl

/-- Witness for `malformed_page_param_restarts` on a concrete garbage
token and the empty store. -/
theorem malformed_page_param_restarts_witness :
    jsParseInt "garbage" = none
    ∧ (feedHandler (some "garbage") none emptyDb 3 0 = feedHandler none none emptyDb 3 0
       ∧ feedHandler none none emptyDb 3 0
          = Except.ok (getPersonalizedFeed emptyDb 3 1 10 0)) :=
  ⟨by decide, malformed_page_param_restarts "garbage" emptyDb 3 0 (by decide)⟩

/-- C8 counterexample: a requested page size of 0 — outside 1..50 — is
NOT rejected: `parseInt("0") || 10` silently replaces it with the
default 10 and the request succeeds. -/
theorem zero_page_size_accepted :
    feedHandler none (some "0") emptyDb 0 0
      = Except.ok (getPersonalizedFeed emptyDb 0 1 10 0) := rfl

/-- C8 (amended): a size parameter parsing to an integer `n` with
`n < 1` or `n > 50` (and `n ≠ 0`) is rejected with the validation error
before any ranking work; every `n` in 1..50 is accepted; but `n = 0`
(and any unparseable size) is silently replaced by the default 10 and
accepted (`zero_page_size_accepted`). -/
theorem page_size_validation (s : String) (n : Int) (db : DB) (u : Nat) (now : Int)
    (hparse : jsParseInt s = some n) :
    (n ≠ 0 → (n < 1 ∨ 50 < n) →
      feedHandler none (some s) db u now = Except.error "Invalid pagination parameters")
    ∧ (1 ≤ n → n ≤ 50 →
      feedHandler none (some s) db u now
        = Except.ok (getPersonalizedFeed db u 1 n.toNat now))
    ∧ (n = 0 →
      feedHandler none (some s) db u now
        = Except.ok (getPersonalizedFeed db u 1 10 now)) := by
  have hp : parseParamOr (some s) 10 = if n = 0 then 10 else n := by
    rw [parseParamOr_some, hparse]
  refine ⟨?_, ?_, ?_⟩
  · intro h0 hbad
    simp only [feedHandler, hp, if_neg h0]
    rw [if_pos]
    exact Or.inr hbad
  · intro h1 h50
    have h0 : n ≠ 0 := by omega
    simp only [feedHandler, hp, if_neg h0]
    rw [if_neg (by push_neg; refine ⟨by decide, by omega, by omega⟩)]
    rfl
  · intro h0
    simp only [feedHandler, hp, if_pos h0]
    rw [if_neg (by decide)]
    rfl

/-- Witness for `page_size_validation`: size 51 is rejected with the
validation error. -/
theorem page_size_validation_witness :
    jsParseInt "51" = some 51
    ∧ feedHandler none (some "51") emptyDb 0 0
        = Except.error "Invalid pagination parameters" :=
  ⟨by decide,
    (page_size_validation "51" 51 emptyDb 0 0 (by decide)).1 (by decide) (by decide)⟩

/-- Unfolding of the like handler at a found post. -/
theorem likePostHandler_found (db : DB) (u pid : Nat) (q : Post)
    (hfind : db.posts.find? (fun x => x.postId == pid) = some q) :
    likePostHandler db u pid
      = (if (!q.isActive) = true then LikeOutcome.inactivePost
         else if db.likes.contains (u, pid) = true then LikeOutcome.alreadyLiked
         else LikeOutcome.ok (incrementLikes q) (((incrementLikes q).likes : Int) + 1)) := by
  unfold likePostHandler
  rw [hfind]

/-- Unfolding of the like handler when the looked-up post is missing. -/
theorem likePostHandler_missing (db : DB) (u pid : Nat)
    (hfind : db.posts.find? (fun x => x.postId == pid) = none) :
    likePostHandler db u pid = LikeOutcome.notFound := by
  unfold likePostHandler
  rw [hfind]

/-- Unfolding of the unlike handler at a found post. -/
theorem unlikePostHandler_found (db : DB) (u pid : Nat) (q : Post)
    (hfind : db.posts.find? (fun x => x.postId == pid) = some q) :
    unlikePostHandler db u pid
      = (if db.likes.contains (u, pid) = true then
           UnlikeOutcome.ok (decrementLikes q) (max 0 (((decrementLikes q).likes : Int) - 1))
         else UnlikeOutcome.notLiked) := by
  unfold unlikePostHandler
  rw [hfind]

/-- Unfolding of the unlike handler when the looked-up post is
missing. -/
theorem unlikePostHandler_missing (db : DB) (u pid : Nat)
    (hfind : db.posts.find? (fun x => x.postId == pid) = none) :
    unlikePostHandler db u pid = UnlikeOutcome.notFound := by
  unfold unlikePostHandler
  rw [hfind]

/-- C9: every successful like response reports `post.likes + 1` read
AFTER `incrementLikes` ran, i.e. the stored count plus one — always one
more than what is persisted; every successful unlike response reports
`max(0, post.likes - 1)` read AFTER `decrementLikes` ran, which
under-reports the persisted count by one whenever the post had at least
two likes before the unlike. -/
theorem like_unlike_report_mismatch (db : DB) (u pid : Nat) :
    (∀ p r, likePostHandler db u pid = LikeOutcome.ok p r →
      r = (p.likes : Int) + 1 ∧ r ≠ (p.likes : Int))
    ∧ (∀ p r, unlikePostHandler db u pid = UnlikeOutcome.ok p r →
      r = max 0 ((p.likes : Int) - 1)
      ∧ ∀ q, db.posts.find? (fun x => x.postId == pid) = some q → 2 ≤ q.likes →
          r = (p.likes : Int) - 1 ∧ r < (p.likes : Int)) := by
  constructor
  · intro p r h
    cases hfind : db.posts.find? (fun x => x.postId == pid) with
    | none =>
      rw [likePostHandler_missing db u pid hfind] at h
      exact LikeOutcome.noConfusion h
    | some q =>
      rw [likePostHandler_found db u pid q hfind] at h
      by_cases hact : q.isActive
      · rw [if_neg (by simp [hact])] at h
        by_cases hcont : db.likes.contains (u, pid)
        · rw [if_pos hcont] at h
          exact LikeOutcome.noConfusion h
        · rw [if_neg hcont] at h
          injection h with h1 h2
          subst h1
          subst h2
          refine ⟨rfl, ?_⟩
          omega
      · rw [if_pos (by simp [hact])] at h
        exact LikeOutcome.noConfusion h
  · intro p r h
    cases hfind : db.posts.find? (fun x => x.postId == pid) with
    | none =>
      rw [unlikePostHandler_missing db u pid hfind] at h
      exact UnlikeOutcome.noConfusion h
    | some q =>
      rw [unlikePostHandler_found db u pid q hfind] at h
      by_cases hcont : db.likes.contains (u, pid)
      · rw [if_pos hcont] at h
        injection h with h1 h2
        subst h1
        subst h2
        refine ⟨rfl, ?_⟩
        intro q' hq' h2l
        have hqq : q = q' := Option.some.inj hq'
        subst hqq
        have hlikes : (decrementLikes q).likes = q.likes - 1 := by
          unfold decrementLikes
          rw [if_pos (by omega)]
        rw [hlikes]
        constructor
        · have : (1 : Int) ≤ ((q.likes - 1 : Nat) : Int) := by
            have : 1 ≤ q.likes - 1 := by omega
            exact_mod_cast this
          omega
        · have h1 : (1 : Int) ≤ ((q.likes - 1 : Nat) : Int) := by
            have : 1 ≤ q.likes - 1 := by omega
            exact_mod_cast this
          have : max 0 (((q.likes - 1 : Nat) : Int) - 1) = ((q.likes - 1 : Nat) : Int) - 1 := by
            omega
          omega
      · rw [if_neg hcont] at h
        exact UnlikeOutcome.noConfusion h

/-- A store with one active five-like post and no like records. -/
def likeDb : DB :=
  { posts := [{ postId := 1, userId := 2, tags := [], likes := 5, createdAt := 0,
                isActive := true }],
    likes := [] }

/-- The stored post after the like: six likes persisted. -/
def likedPost : Post :=
  { postId := 1, userId := 2, tags := [], likes := 6, createdAt := 0, isActive := true }

/-- A store with the same post and an existing like by user 7. -/
def unlikeDb : DB :=
  { posts := [{ postId := 1, userId := 2, tags := [], likes := 5, createdAt := 0,
                isActive := true }],
    likes := [(7, 1)] }

/-- The stored post after the unlike: four likes persisted. -/
def unlikedPost : Post :=
  { postId := 1, userId := 2, tags := [], likes := 4, createdAt := 0, isActive := true }

/-- Witness for `like_unlike_report_mismatch`: the like response reports
7 while 6 is persisted, and the unlike response reports 3 while 4 is
persisted. -/
theorem like_unlike_report_mismatch_witness :
    likePostHandler likeDb 7 1 = LikeOutcome.ok likedPost 7
    ∧ ((7 : Int) = (likedPost.likes : Int) + 1 ∧ (7 : Int) ≠ (likedPost.likes : Int))
    ∧ unlikePostHandler unlikeDb 7 1 = UnlikeOutcome.ok unlikedPost 3
    ∧ (3 : Int) = max 0 ((unlikedPost.likes : Int) - 1) :=
  ⟨by decide,
    (like_unlike_report_mismatch likeDb 7 1).1 likedPost 7 (by decide),
    by decide,
    ((like_unlike_report_mismatch unlikeDb 7 1).2 unlikedPost 3 (by decide)).1⟩
